import Mathlib

/-!
Verification of the computational core of the stock-prediction dashboard:
technical indicators (`backend/app/utils/technical_indicators.py`), the
signal aggregator, the ensemble prediction blender
(`ml-models/ensemble_model.py`) and the heuristic fallback predictor
(`backend/app/services/real_data_predictor.py`).

Numbers are modelled as rationals (`ℚ`); the Python floats are treated as
exact real arithmetic.  A pandas `NaN` entry is modelled as `none` in
`Option ℚ`.  Python's `round(x, n)` rounds ties to even on binary floats;
we model it with `round` (ties away from one half upward), which agrees
with the source everywhere away from exact decimal ties, and every
concrete value appearing in a theorem below is tie-free.
-/

namespace StockDash

/-- Rounding of a rational to the nearest integer (`⌊q + 1/2⌋`), written
with explicit numerator/denominator integer division so that the kernel
can evaluate it; `roundq_eq` below identifies it with Mathlib's `round`. -/
def roundq (q : ℚ) : ℤ := (q + 1/2).num / (q + 1/2).den

/-- Model of Python `round(x, 1)`: round to one decimal place. -/
def round1 (q : ℚ) : ℚ := (roundq (q * 10) : ℤ) / 10

/-- Model of Python `round(x, 2)`: round to two decimal places. -/
def round2 (q : ℚ) : ℚ := (roundq (q * 100) : ℤ) / 100

/-- Model of `numpy.sign` on a real number. -/
def qsign (q : ℚ) : ℚ := if 0 < q then 1 else if q < 0 then -1 else 0

/-! ## Signal generation (`technical_indicators.py`, `SignalResult`,
`TechnicalIndicators.get_overall_signal`) -/

/-- Embeds the `SignalResult` dataclass: signal label, strength, reason. -/
structure SignalResult where
  signal : String
  strength : ℚ
  reason : String
  deriving Repr, DecidableEq

/-- Sum of strengths of the signals labelled `"buy"` (the `buy_score`
accumulator of `get_overall_signal`). -/
def buyScore (signals : List SignalResult) : ℚ :=
  ((signals.filter (fun s => s.signal = "buy")).map SignalResult.strength).sum

/-- Sum of strengths of the signals labelled `"sell"` (`sell_score`). -/
def sellScore (signals : List SignalResult) : ℚ :=
  ((signals.filter (fun s => s.signal = "sell")).map SignalResult.strength).sum

/-- Sum of strengths of the remaining signals (the `else` branch of the
accumulation loop, `hold_score`). -/
def holdScore (signals : List SignalResult) : ℚ :=
  ((signals.filter (fun s => ¬(s.signal = "buy") ∧ ¬(s.signal = "sell"))).map
    SignalResult.strength).sum

/-- The `total` variable of `get_overall_signal`. -/
def totalScore (signals : List SignalResult) : ℚ :=
  buyScore signals + sellScore signals + holdScore signals

/-- Embeds `TechnicalIndicators.get_overall_signal`.  Every non-empty branch
divides a bucket score by `total`; Python raises `ZeroDivisionError` when
`total` is zero, modelled here as `none`. -/
def get_overall_signal (signals : List SignalResult) : Option SignalResult :=
  if signals = [] then
    some ⟨"hold", 50, "Insufficient data for analysis"⟩
  else
    let buy := buyScore signals
    let sell := sellScore signals
    let hold := holdScore signals
    let total := buy + sell + hold
    if total = 0 then none
    else if buy > sell ∧ buy > hold then
      some ⟨"buy", round1 (buy / total * 100),
        "Bullish signals from " ++
          toString (signals.filter (fun s => s.signal = "buy")).length ++ " indicators"⟩
    else if sell > buy ∧ sell > hold then
      some ⟨"sell", round1 (sell / total * 100),
        "Bearish signals from " ++
          toString (signals.filter (fun s => s.signal = "sell")).length ++ " indicators"⟩
    else
      some ⟨"hold", round1 (hold / total * 100), "Mixed signals - consider waiting"⟩

/-! ## Pivot points (`TechnicalIndicators.calculate_pivot_points`) -/

/-- Result record of `calculate_pivot_points`. -/
structure PivotPoints where
  pivot : ℚ
  r1 : ℚ
  r2 : ℚ
  r3 : ℚ
  s1 : ℚ
  s2 : ℚ
  s3 : ℚ
  deriving Repr, DecidableEq

/-- Embeds `TechnicalIndicators.calculate_pivot_points`: standard pivot
formulas, every returned entry rounded to two decimals. -/
def calculate_pivot_points (high low close : ℚ) : PivotPoints :=
  let pivot := (high + low + close) / 3
  { pivot := round2 pivot
    r1 := round2 ((2 * pivot) - low)
    r2 := round2 (pivot + (high - low))
    r3 := round2 (high + 2 * (pivot - low))
    s1 := round2 ((2 * pivot) - high)
    s2 := round2 (pivot - (high - low))
    s3 := round2 (low - 2 * (high - pivot)) }

/-! ## RSI (`TechnicalIndicators.calculate_rsi`) -/

/-- Model of `series.rolling(window=w).mean()`: position `i` holds the mean
of the last `w` entries once `w` entries are available, `NaN` (`none`)
before that. -/
def rollingMean (w : ℕ) (xs : List ℚ) : List (Option ℚ) :=
  (List.range xs.length).map fun i =>
    if w ≤ i + 1 then some (((xs.drop (i + 1 - w)).take w).sum / w) else none

/-- Model of `delta.where(delta > 0, 0)` on `delta = prices.diff()`: the
positive part of each one-bar difference, with the leading `NaN` of `diff`
becoming `0` (since `NaN > 0` is false in pandas). -/
def gains (prices : List ℚ) : List ℚ :=
  0 :: List.zipWith (fun a b => max (a - b) 0) prices.tail prices

/-- Model of `-delta.where(delta < 0, 0)`: the negative part of each one-bar
difference, sign flipped, leading `NaN` becoming `0`. -/
def losses (prices : List ℚ) : List ℚ :=
  0 :: List.zipWith (fun a b => max (b - a) 0) prices.tail prices

/-- Embeds `TechnicalIndicators.calculate_rsi` before the final
`fillna(50)`: `rs = gain / loss.replace(0, nan)` and
`rsi = 100 - 100/(1+rs)`, so a zero loss average or an unfilled rolling
window yields `none`. -/
def rsiRaw (prices : List ℚ) (period : ℕ) : List (Option ℚ) :=
  List.zipWith
    (fun g l =>
      match g, l with
      | some gv, some lv =>
          if lv = 0 then none else some (100 - 100 / (1 + gv / lv))
      | _, _ => none)
    (rollingMean period (gains prices)) (rollingMean period (losses prices))

/-- Embeds `TechnicalIndicators.calculate_rsi`.  With fewer than
`period + 1` prices the source returns a series of `NaN`; otherwise the
raw RSI with every undefined position filled with 50. -/
def calculate_rsi (prices : List ℚ) (period : ℕ := 14) : List (Option ℚ) :=
  if prices.length < period + 1 then List.replicate prices.length none
  else (rsiRaw prices period).map (fun x => some (x.getD 50))

/-! ## ATR and OBV (`calculate_atr`, `calculate_obv`) -/

/-- Model of the true-range series: `max(high-low, |high-prev_close|,
|low-prev_close|)`, where the first bar (whose `close.shift(1)` is `NaN`)
keeps only `high - low` because `pd.concat(...).max(axis=1)` skips `NaN`. -/
def true_range (high low close : List ℚ) : List ℚ :=
  (List.range high.length).map fun i =>
    let hl := high.getD i 0 - low.getD i 0
    if i = 0 then hl
    else
      match close.get? (i - 1) with
      | some c => max hl (max |high.getD i 0 - c| |low.getD i 0 - c|)
      | none => hl

/-- Embeds `TechnicalIndicators.calculate_atr`: rolling `period`-bar mean of
the true range (no `fillna`, so the warm-up positions stay `NaN`). -/
def calculate_atr (high low close : List ℚ) (period : ℕ := 14) : List (Option ℚ) :=
  rollingMean period (true_range high low close)

/-- Model of `np.sign(prices.diff())` with `direction.iloc[0] = 0`.  The
source indexes position 0, so it raises on an empty series; this definition
is only used (and only quantified over) for non-empty price lists. -/
def obvDirections (prices : List ℚ) : List ℚ :=
  match prices with
  | [] => []
  | _ :: _ => 0 :: List.zipWith (fun a b => qsign (a - b)) prices.tail prices

/-- Model of `series.cumsum()` with a running accumulator. -/
def cumsumFrom (acc : ℚ) : List ℚ → List ℚ
  | [] => []
  | x :: xs => (acc + x) :: cumsumFrom (acc + x) xs

/-- Embeds `TechnicalIndicators.calculate_obv`:
`(direction * volume).cumsum()`. -/
def calculate_obv (prices volume : List ℚ) : List ℚ :=
  cumsumFrom 0 (List.zipWith (· * ·) (obvDirections prices) volume)

/-- The `j`-th summand of the OBV cumulative sum as the specification
describes it: zero for the first bar, otherwise the bar's volume signed by
the close-to-previous-close change. -/
def obvTerm (prices volume : List ℚ) (j : ℕ) : ℚ :=
  if j = 0 then 0
  else qsign (prices.getD j 0 - prices.getD (j - 1) 0) * volume.getD j 0

/-! ## Support and resistance (`find_support_resistance`) -/

/-- Comparison `a > b` on optional values; any comparison against `NaN`
(`none`) is false, as in pandas. -/
def optGtQ (a b : Option ℚ) : Bool :=
  match a, b with
  | some x, some y => decide (y < x)
  | _, _ => false

/-- Model of `prices.shift(w)` read at position `i`: the value `w` bars
earlier, `NaN` for the first `w` positions. -/
def shiftBack (prices : List ℚ) (w i : ℕ) : Option ℚ :=
  if w ≤ i then prices.get? (i - w) else none

/-- Insertion of one element into an ascending list. -/
def insertAsc (x : ℚ) : List ℚ → List ℚ
  | [] => [x]
  | y :: ys => if x ≤ y then x :: y :: ys else y :: insertAsc x ys

/-- Ascending insertion sort, modelling Python's `sorted`. -/
def sortAsc (xs : List ℚ) : List ℚ := xs.foldr insertAsc []

/-- Insertion of one element into a descending list. -/
def insertDesc (x : ℚ) : List ℚ → List ℚ
  | [] => [x]
  | y :: ys => if y ≤ x then x :: y :: ys else y :: insertDesc x ys

/-- Descending insertion sort, modelling `sorted(..., reverse=True)`. -/
def sortDesc (xs : List ℚ) : List ℚ := xs.foldr insertDesc []

/-- The boolean mask `(prices.shift(window) > prices) &
(prices.shift(-window) > prices)` at position `i` (local minimum). -/
def isLocalMin (prices : List ℚ) (window i : ℕ) : Bool :=
  optGtQ (shiftBack prices window i) (prices.get? i) &&
    optGtQ (prices.get? (i + window)) (prices.get? i)

/-- The boolean mask for a local maximum:
`(prices.shift(window) < prices) & (prices.shift(-window) < prices)`. -/
def isLocalMax (prices : List ℚ) (window i : ℕ) : Bool :=
  optGtQ (prices.get? i) (shiftBack prices window i) &&
    optGtQ (prices.get? i) (prices.get? (i + window))

/-- Embeds `TechnicalIndicators.find_support_resistance` (source defaults
`window=10`, `num_levels=3`): collects the local-minimum prices as support
and the local-maximum prices as resistance, deduplicates, sorts support
ascending and resistance descending, keeps `num_levels` entries and rounds
each to two decimals. -/
def find_support_resistance (prices : List ℚ) (window : ℕ := 10)
    (num_levels : ℕ := 3) : List ℚ × List ℚ :=
  let localMin :=
    ((List.range prices.length).filter (fun i => isLocalMin prices window i)).map
      (fun i => prices.getD i 0)
  let localMax :=
    ((List.range prices.length).filter (fun i => isLocalMax prices window i)).map
      (fun i => prices.getD i 0)
  (((sortAsc localMin.dedup).take num_levels).map round2,
    ((sortDesc localMax.dedup).take num_levels).map round2)

/-- Specification-side description of the support levels for an arbitrary
`window`: the prices strictly lower than both the price `window` bars
before and the price `window` bars after, deduplicated, sorted ascending,
truncated to `num_levels` and rounded to two decimals. -/
def specSupport (prices : List ℚ) (window num_levels : ℕ) : List ℚ :=
  let lows :=
    ((List.range prices.length).filter (fun i =>
      decide (window ≤ i) && decide (i + window < prices.length) &&
        decide (prices.getD i 0 < prices.getD (i - window) 0) &&
        decide (prices.getD i 0 < prices.getD (i + window) 0))).map
      (fun i => prices.getD i 0)
  ((sortAsc lows.dedup).take num_levels).map round2

/-- Specification-side description of the resistance levels: prices
strictly higher than both neighbours at distance `window`, deduplicated,
sorted descending, truncated, rounded to two decimals. -/
def specResistance (prices : List ℚ) (window num_levels : ℕ) : List ℚ :=
  let highs :=
    ((List.range prices.length).filter (fun i =>
      decide (window ≤ i) && decide (i + window < prices.length) &&
        decide (prices.getD (i - window) 0 < prices.getD i 0) &&
        decide (prices.getD (i + window) 0 < prices.getD i 0))).map
      (fun i => prices.getD i 0)
  ((sortDesc highs.dedup).take num_levels).map round2

/-! ## Golden and death cross (`detect_golden_cross`, `detect_death_cross`) -/

/-- Comparison `a ≤ b` on optional values; false when either is `NaN`. -/
def optLeQ (a b : Option ℚ) : Bool :=
  match a, b with
  | some x, some y => decide (x ≤ y)
  | _, _ => false

/-- Entry of an `Option ℚ`-valued series at position `i` (the SMA series
themselves contain `NaN` during their warm-up). -/
def atO (xs : List (Option ℚ)) (i : ℕ) : Option ℚ := (xs.get? i).join

/-- The golden-cross condition at one position:
`(sma_50 > sma_200) & (sma_50.shift(1) <= sma_200.shift(1))`, with
`fillna(False)` absorbed by the `NaN`-is-false comparisons. -/
def goldenAt (sma50 sma200 : List (Option ℚ)) (i : ℕ) : Bool :=
  optGtQ (atO sma50 i) (atO sma200 i) &&
    (decide (0 < i) && optLeQ (atO sma50 (i - 1)) (atO sma200 (i - 1)))

/-- The death-cross condition at one position:
`(sma_50 < sma_200) & (sma_50.shift(1) >= sma_200.shift(1))`. -/
def deathAt (sma50 sma200 : List (Option ℚ)) (i : ℕ) : Bool :=
  optGtQ (atO sma200 i) (atO sma50 i) &&
    (decide (0 < i) && optLeQ (atO sma200 (i - 1)) (atO sma50 (i - 1)))

/-- Embeds `TechnicalIndicators.detect_golden_cross`. -/
def detect_golden_cross (sma50 sma200 : List (Option ℚ)) : List Bool :=
  (List.range sma50.length).map (goldenAt sma50 sma200)

/-- Embeds `TechnicalIndicators.detect_death_cross`. -/
def detect_death_cross (sma50 sma200 : List (Option ℚ)) : List Bool :=
  (List.range sma50.length).map (deathAt sma50 sma200)

/-! ## Prediction blender (`ml-models/ensemble_model.py`,
`EnsemblePredictor.ensemble_predict`)

The model predictions are an insertion-ordered association list (Python
dicts iterate in insertion order).  Three quantities the source obtains
from floating-point library calls are passed as parameters and pinned down
by hypotheses in the theorems: `demoChange` for `np.random.uniform(-2, 3)`
in the no-model branch, `predStd` for `np.std(pred_values)` (the
population standard deviation, the unique `s ≥ 0` with
`s^2 = predVariance`), and `volStd` for
`data['Close'].pct_change().std()` (the sample standard deviation of the
one-bar percentage returns). -/

/-- Embeds the `EnsemblePredictor.WEIGHTS` table together with the
`WEIGHTS.get(model_name, 0.1)` default for unknown names. -/
def WEIGHTS (name : String) : ℚ :=
  if name = "lstm" then 2/5
  else if name = "gru" then 3/10
  else if name = "xgboost" then 1/5
  else if name = "random_forest" then 1/10
  else 1/10

/-- Embeds the contribution loop of `ensemble_predict`: the source updates
`total_weight` and then divides by it inside the loop, so each model's
contribution is its weight over the *running* total at its own iteration,
rounded to one decimal. -/
def contribAux (acc : ℚ) : List (String × ℚ) → List (String × ℚ)
  | [] => []
  | (name, _) :: rest =>
      let tw := acc + WEIGHTS name
      (name, round1 (WEIGHTS name * 100 / tw)) :: contribAux tw rest

/-- The final `total_weight` of the loop: sum of the present models'
weights. -/
def totalWeight (predictions : List (String × ℚ)) : ℚ :=
  (predictions.map (fun p => WEIGHTS p.1)).sum

/-- The final `weighted_sum` of the loop: sum of weight times prediction. -/
def weightedSum (predictions : List (String × ℚ)) : ℚ :=
  (predictions.map (fun p => p.2 * WEIGHTS p.1)).sum

/-- Model of `np.mean(pred_values)`. -/
def predMean (predictions : List (String × ℚ)) : ℚ :=
  (predictions.map Prod.snd).sum / predictions.length

/-- Population variance of the prediction values; `np.std(pred_values)` is
its unique nonnegative square root. -/
def predVariance (predictions : List (String × ℚ)) : ℚ :=
  ((predictions.map (fun p => (p.2 - predMean predictions) ^ 2)).sum) /
    predictions.length

/-- Model of `data['Close'].pct_change()`: one-bar percentage returns
(`NaN` head dropped, as pandas statistics skip it). -/
def pctChanges (closes : List ℚ) : List ℚ :=
  List.zipWith (fun a b => a / b - 1) closes.tail closes

/-- Sample variance (`ddof=1`, the pandas `.std()` default squared). -/
def sampleVariance (xs : List ℚ) : ℚ :=
  let m := xs.sum / xs.length
  ((xs.map (fun x => (x - m) ^ 2)).sum) / (xs.length - 1 : ℕ)

/-- Embeds the `PredictionResult` dataclass of `ensemble_model.py` (the
`prediction_date` timestamp field is omitted: wall-clock time is outside
the embedding). -/
structure PredictionResult where
  symbol : String
  current_price : ℚ
  predicted_price : ℚ
  change_percent : ℚ
  confidence : ℚ
  model_contributions : List (String × ℚ)
  upper_bound : ℚ
  lower_bound : ℚ
  quality : String
  deriving Repr, DecidableEq

/-- Embeds `EnsemblePredictor.ensemble_predict` from the point where the
per-model predictions have been collected.  With no predictions the demo
branch runs (`demoChange` standing for the `np.random.uniform(-2, 3)`
draw); otherwise `change_percent` divides by `current_price`, which raises
`ZeroDivisionError` when the current price is zero, modelled as `none`. -/
def ensemble_predict (symbol : String) (predictions : List (String × ℚ))
    (current_price demoChange predStd volStd : ℚ) : Option PredictionResult :=
  if predictions = [] then
    let predicted_price := current_price * (1 + demoChange / 100)
    some { symbol := symbol
           current_price := round2 current_price
           predicted_price := round2 predicted_price
           change_percent := round2 demoChange
           confidence := 65
           model_contributions := [("demo", 100)]
           upper_bound := round2 (predicted_price * (102/100))
           lower_bound := round2 (predicted_price * (98/100))
           quality := "medium" }
  else if current_price = 0 then none
  else
    let tw := totalWeight predictions
    let ensemble_pred := if 0 < tw then weightedSum predictions / tw else current_price
    let confidence :=
      if 1 < predictions.length then
        let mean := predMean predictions
        let cv := if mean = 0 then 0 else predStd / mean
        max 50 (min 95 (100 - cv * 200))
      else 60
    let change_percent := (ensemble_pred - current_price) / current_price * 100
    let quality :=
      if 80 ≤ confidence ∧ 3 ≤ predictions.length then "high"
      else if 65 ≤ confidence ∧ 2 ≤ predictions.length then "medium"
      else "low"
    let volatility := volStd * 100
    let margin := max (3/2) (volatility * 2)
    some { symbol := symbol
           current_price := round2 current_price
           predicted_price := round2 ensemble_pred
           change_percent := round2 change_percent
           confidence := round1 confidence
           model_contributions := contribAux 0 predictions
           upper_bound := round2 (ensemble_pred * (1 + margin / 100))
           lower_bound := round2 (ensemble_pred * (1 - margin / 100))
           quality := quality }

/-! ## Heuristic fallback predictor
(`backend/app/services/real_data_predictor.py`,
`RealDataPredictor._generate_prediction`)

Two floating-point quantities are passed as parameters: `noise` for the
`np.random.normal` draw of the branch taken, and `dailyVol` for
`(indicators.get('volatility', 20) / 100) / np.sqrt(252)` (only the
predicted price depends on it, never the confidence score or quality). -/

/-- Model of `indicators.get(key, default)` on the indicator dictionary. -/
def getInd (inds : List (String × ℚ)) (key : String) (dflt : ℚ) : ℚ :=
  match inds.lookup key with
  | some v => v
  | none => dflt

/-- The `(signal, weight)` pairs accumulated by `_generate_prediction`, in
source order: SMA crossover (guarded by Python truthiness, so both values
must be present and nonzero), RSI, MACD versus its signal line, Bollinger
position (omitted in the middle band or on a flat band), and clipped
five-bar momentum. -/
def fallbackPairs (current_price : ℚ) (inds : List (String × ℚ)) : List (ℚ × ℚ) :=
  let smaPart :=
    match inds.lookup "sma_5", inds.lookup "sma_20" with
    | some a, some b =>
        if a ≠ 0 ∧ b ≠ 0 then [((if b < a then (1:ℚ) else -1), (1/5 : ℚ))] else []
    | _, _ => []
  let rsi := getInd inds "rsi" 50
  let rsiPart :=
    if rsi < 35 then [((1:ℚ), 1/5)]
    else if 65 < rsi then [((-1:ℚ), 1/5)]
    else [((if 50 < rsi then (1/5 : ℚ) else -(1/5)), 1/10)]
  let macd := getInd inds "macd" 0
  let macdSig := getInd inds "macd_signal" 0
  let macdPart :=
    if macdSig < macd then [((1/2 : ℚ), 3/20)] else [((-(1/2) : ℚ), 3/20)]
  let up := getInd inds "bb_upper" 0
  let lo := getInd inds "bb_lower" 0
  let bbPart :=
    if up ≠ lo then
      let pos := (current_price - lo) / (up - lo)
      if pos < 1/5 then [((1:ℚ), 3/20)]
      else if 4/5 < pos then [((-1:ℚ), 3/20)]
      else []
    else []
  let mom := getInd inds "momentum_5" 0
  let momPart := [((min 1 (max (-1) (mom / 10)), (3/20 : ℚ)))]
  smaPart ++ rsiPart ++ macdPart ++ bbPart ++ momPart

/-- The `weighted_signal` of `_generate_prediction`: weighted sum of the
signals over the total of the contributing weights (zero when the total is
zero). -/
def weightedSignal (current_price : ℚ) (inds : List (String × ℚ)) : ℚ :=
  let pairs := fallbackPairs current_price inds
  let total := (pairs.map Prod.snd).sum
  if 0 < total then ((pairs.map (fun p => p.1 * p.2)).sum) / total else 0

/-- Embeds `RealDataPredictor._generate_prediction`, returning
`(predicted_price, quality, confidence_score)`.  With no indicators the
price is pure noise (`noise` standing for the `np.random.normal(0.1, 1.5)`
draw) with quality `"low"` and confidence 50; otherwise the score is
`50 + 30·|weighted_signal|`, plus 5 on high volume ratio, minus 4 per day
beyond the first, clamped by `min(95, max(30, ·))`. -/
def generate_prediction (current_price : ℚ) (inds : List (String × ℚ))
    (days_ahead : ℤ) (noise dailyVol : ℚ) : ℚ × String × ℚ :=
  if inds = [] then
    let change := noise * days_ahead
    (current_price * (1 + change / 100), ("low", 50))
  else
    let ws := weightedSignal current_price inds
    let predicted_change := ws * dailyVol * 100 * days_ahead + noise
    let predicted_price := current_price * (1 + predicted_change / 100)
    let score0 := 50 + |ws| * 30
    let score1 := if 6/5 < getInd inds "volume_ratio" 1 then score0 + 5 else score0
    let score := min 95 (max 30 (score1 - ((days_ahead : ℚ) - 1) * 4))
    let quality :=
      if 75 ≤ score then "high" else if 55 ≤ score then "medium" else "low"
    (predicted_price, (quality, score))

/-- The bound invariant claimed of every produced `PredictionResult`. -/
def boundsOk (r : PredictionResult) : Prop :=
  r.lower_bound ≤ r.predicted_price ∧ r.predicted_price ≤ r.upper_bound

/-! ## General lemmas about the rounding and aggregation helpers -/

theorem roundq_eq (q : ℚ) : roundq q = round q := by
  rw [round_eq, Rat.floor_def]
  rfl

theorem roundq_mono {x y : ℚ} (h : x ≤ y) : roundq x ≤ roundq y := by
  rw [roundq_eq, roundq_eq, round_eq, round_eq]
  exact Int.floor_le_floor (by linarith)

theorem round1_mono {x y : ℚ} (h : x ≤ y) : round1 x ≤ round1 y := by
  unfold round1
  have h1 : roundq (x * 10) ≤ roundq (y * 10) := roundq_mono (by linarith)
  have h2 : ((roundq (x * 10) : ℤ) : ℚ) ≤ ((roundq (y * 10) : ℤ) : ℚ) := by exact_mod_cast h1
  linarith

theorem round1_nonneg {q : ℚ} (h0 : 0 ≤ q) : 0 ≤ round1 q := by
  have h := round1_mono h0
  have h1 : round1 0 = 0 := by norm_num [round1, roundq]
  linarith

theorem round1_le_100 {q : ℚ} (h1 : q ≤ 100) : round1 q ≤ 100 := by
  have h := round1_mono h1
  have h2 : round1 100 = 100 := by norm_num [round1, roundq]
  linarith

theorem round2_mono {x y : ℚ} (h : x ≤ y) : round2 x ≤ round2 y := by
  unfold round2
  have h1 : roundq (x * 100) ≤ roundq (y * 100) := roundq_mono (by linarith)
  have h2 : ((roundq (x * 100) : ℤ) : ℚ) ≤ ((roundq (y * 100) : ℤ) : ℚ) := by exact_mod_cast h1
  linarith

theorem optGtQ_asymm (a b : Option ℚ) : (optGtQ a b && optGtQ b a) = false := by
  rcases a with _ | x <;> rcases b with _ | y <;> simp [optGtQ]
  exact fun h1 => le_of_lt h1

theorem goldenAt_deathAt (sma50 sma200 : List (Option ℚ)) (i : ℕ) :
    (goldenAt sma50 sma200 i && deathAt sma50 sma200 i) = false := by
  unfold goldenAt deathAt
  have hx := optGtQ_asymm (atO sma50 i) (atO sma200 i)
  cases hA : optGtQ (atO sma50 i) (atO sma200 i)
  · simp [hA]
  · rw [hA] at hx
    have hB : optGtQ (atO sma200 i) (atO sma50 i) = false := by simpa using hx
    simp [hA, hB]

/-! ## Claim theorems -/

/-- C9 (counterexample): the pivot function rounds its outputs to two
decimals, so for H=1, L=0, C=0 it returns 0.33, not (H+L+C)/3 = 1/3. -/
theorem C9_counterexample :
    (calculate_pivot_points 1 0 0).pivot = 33/100 ∧
      (33/100 : ℚ) ≠ (1 + 0 + 0) / 3 := by
  norm_num [calculate_pivot_points, round2, roundq]

/-- C9 (amended): `calculate_pivot_points` returns the standard pivot
formulas — pivot=(H+L+C)/3, R1=2P−L, R2=P+(H−L), R3=H+2(P−L), S1=2P−H,
S2=P−(H−L), S3=L−2(H−P) — each rounded to two decimals, and on
H=110, L=90, C=100 yields pivot=100.0, R1=110.0, R2=120.0, R3=130.0,
S1=90.0, S2=80.0, S3=70.0 exactly. -/
theorem C9_pivot_points (h l c : ℚ) :
    (calculate_pivot_points h l c).pivot = round2 ((h + l + c) / 3) ∧
    (calculate_pivot_points h l c).r1 = round2 (2 * ((h + l + c) / 3) - l) ∧
    (calculate_pivot_points h l c).r2 = round2 ((h + l + c) / 3 + (h - l)) ∧
    (calculate_pivot_points h l c).r3 = round2 (h + 2 * ((h + l + c) / 3 - l)) ∧
    (calculate_pivot_points h l c).s1 = round2 (2 * ((h + l + c) / 3) - h) ∧
    (calculate_pivot_points h l c).s2 = round2 ((h + l + c) / 3 - (h - l)) ∧
    (calculate_pivot_points h l c).s3 = round2 (l - 2 * (h - (h + l + c) / 3)) ∧
    calculate_pivot_points 110 90 100 = ⟨100, 110, 120, 130, 90, 80, 70⟩ := by
  refine ⟨rfl, rfl, rfl, rfl, rfl, rfl, rfl, ?_⟩
  norm_num [calculate_pivot_points, round2, roundq]

/-- C10: a golden cross and a death cross are never detected at the same
position, since one needs SMA-50 above SMA-200 there and the other needs
it below. -/
theorem C10_cross_exclusive (sma50 sma200 : List (Option ℚ)) (i : ℕ) :
    ((detect_golden_cross sma50 sma200).getD i false &&
      (detect_death_cross sma50 sma200).getD i false) = false := by
  unfold detect_golden_cross detect_death_cross
  rw [List.getD_eq_getElem?_getD, List.getD_eq_getElem?_getD]
  by_cases hi : i < sma50.length
  · rw [List.getElem?_map, List.getElem?_map, List.getElem?_range hi]
    simpa using goldenAt_deathAt sma50 sma200 i
  · have hr : (List.range sma50.length)[i]? = none :=
      List.getElem?_eq_none (by simpa using Nat.le_of_not_lt hi)
    rw [List.getElem?_map, List.getElem?_map, hr]
    rfl

theorem get?_eq_some_getD {l : List ℚ} {i : ℕ} (h : i < l.length) :
    l.get? i = some (l.getD i 0) := by
  simp [List.get?_eq_getElem?, List.getElem?_eq_getElem h, List.getD_eq_getElem?_getD]

theorem getElem?_eq_some_getD {l : List ℚ} {i : ℕ} (h : i < l.length) :
    l[i]? = some (l.getD i 0) := by
  simp [List.getElem?_eq_getElem h, List.getD_eq_getElem?_getD]

theorem isLocalMin_eq (prices : List ℚ) (window i : ℕ) (hi : i < prices.length) :
    isLocalMin prices window i =
      (decide (window ≤ i) && decide (i + window < prices.length) &&
        decide (prices.getD i 0 < prices.getD (i - window) 0) &&
        decide (prices.getD i 0 < prices.getD (i + window) 0)) := by
  unfold isLocalMin shiftBack optGtQ
  have hgi : prices.get? i = some (prices.getD i 0) := get?_eq_some_getD hi
  by_cases h1 : window ≤ i
  · have hiw : i - window < prices.length := lt_of_le_of_lt (Nat.sub_le i window) hi
    have hg1 : prices.get? (i - window) = some (prices.getD (i - window) 0) :=
      get?_eq_some_getD hiw
    by_cases h2 : i + window < prices.length
    · have hg2 : prices.get? (i + window) = some (prices.getD (i + window) 0) :=
        get?_eq_some_getD h2
      rw [if_pos h1, hg1, hgi, hg2, decide_eq_true h1, decide_eq_true h2]
      rfl
    · have hg2 : prices.get? (i + window) = none := by
        rw [List.get?_eq_getElem?]
        exact List.getElem?_eq_none (Nat.le_of_not_lt h2)
      rw [if_pos h1, hg1, hgi, hg2, decide_eq_true h1, decide_eq_false h2]
      simp
  · rw [if_neg h1, hgi, decide_eq_false h1, Bool.false_and, Bool.false_and, Bool.false_and]
    rfl

theorem isLocalMax_eq (prices : List ℚ) (window i : ℕ) (hi : i < prices.length) :
    isLocalMax prices window i =
      (decide (window ≤ i) && decide (i + window < prices.length) &&
        decide (prices.getD (i - window) 0 < prices.getD i 0) &&
        decide (prices.getD (i + window) 0 < prices.getD i 0)) := by
  unfold isLocalMax shiftBack optGtQ
  have hgi : prices.get? i = some (prices.getD i 0) := get?_eq_some_getD hi
  by_cases h1 : window ≤ i
  · have hiw : i - window < prices.length := lt_of_le_of_lt (Nat.sub_le i window) hi
    have hg1 : prices.get? (i - window) = some (prices.getD (i - window) 0) :=
      get?_eq_some_getD hiw
    by_cases h2 : i + window < prices.length
    · have hg2 : prices.get? (i + window) = some (prices.getD (i + window) 0) :=
        get?_eq_some_getD h2
      rw [if_pos h1, hg1, hgi, hg2, decide_eq_true h1, decide_eq_true h2]
      rfl
    · have hg2 : prices.get? (i + window) = none := by
        rw [List.get?_eq_getElem?]
        exact List.getElem?_eq_none (Nat.le_of_not_lt h2)
      rw [if_pos h1, hg1, hgi, hg2, decide_eq_true h1, decide_eq_false h2]
      simp
  · rw [if_neg h1, hgi, decide_eq_false h1, Bool.false_and, Bool.false_and, Bool.false_and]
    rfl

theorem fsr_eq_spec (prices : List ℚ) (window num_levels : ℕ) :
    find_support_resistance prices window num_levels =
      (specSupport prices window num_levels, specResistance prices window num_levels) := by
  simp only [find_support_resistance, specSupport, specResistance]
  have hmin :
      List.filter (fun i => isLocalMin prices window i) (List.range prices.length) =
        List.filter (fun i =>
          decide (window ≤ i) && decide (i + window < prices.length) &&
            decide (prices.getD i 0 < prices.getD (i - window) 0) &&
            decide (prices.getD i 0 < prices.getD (i + window) 0))
          (List.range prices.length) :=
    List.filter_congr (fun i hi => isLocalMin_eq prices window i (List.mem_range.mp hi))
  have hmax :
      List.filter (fun i => isLocalMax prices window i) (List.range prices.length) =
        List.filter (fun i =>
          decide (window ≤ i) && decide (i + window < prices.length) &&
            decide (prices.getD (i - window) 0 < prices.getD i 0) &&
            decide (prices.getD (i + window) 0 < prices.getD i 0))
          (List.range prices.length) :=
    List.filter_congr (fun i hi => isLocalMax_eq prices window i (List.mem_range.mp hi))
  rw [hmin, hmax]

/-- C8 (counterexample): the source's default window is 10, not 5.  On a
V-shaped series of 11 bars whose minimum (90) is flanked at distance 5,
the source's default parameters find no support level, while the claimed
window-5 rule finds support `[90]`. -/
theorem C8_counterexample :
    (find_support_resistance [100,99,98,97,96,90,96,97,98,99,100]).1 = [] ∧
    specSupport [100,99,98,97,96,90,96,97,98,99,100] 5 3 = [90] ∧
    ([] : List ℚ) ≠ [90] := by
  refine ⟨?_, ?_, by simp⟩
  · norm_num [find_support_resistance, List.range_succ, isLocalMin, isLocalMax, shiftBack,
      optGtQ, sortAsc, insertAsc, round2, roundq]
  · norm_num [specSupport, List.range_succ, sortAsc, insertAsc, round2, roundq]

/-- C8 (amended): with its source default `window = 10` (not 5),
`find_support_resistance` returns as support (resistance) exactly the
prices strictly lower (higher) than both the price `window` bars before
and the price `window` bars after, deduplicated, sorted (ascending for
support, descending for resistance), truncated to `num_levels` entries and
rounded to two decimals; proved here for every window, in particular the
default 10. -/
theorem C8_support_resistance (prices : List ℚ) (window num_levels : ℕ) :
    find_support_resistance prices window num_levels =
      (specSupport prices window num_levels, specResistance prices window num_levels) :=
  fsr_eq_spec prices window num_levels

/-- C1 (evaluation at the failing input): the contribution loop divides by
the running total weight, so for predictions `{lstm: 100, gru: 100}` the
code reports lstm → 100.0 (its weight over the total so far, 0.4/0.4) and
gru → 42.9, summing to 142.9; the claimed value for lstm — its weight over
the total of the weights actually present, 0.4/0.7 × 100 rounded to one
decimal — would be 57.1, with the contributions summing to 100. -/
theorem C1_contrib_running_total :
    ensemble_predict "S" [("lstm", 100), ("gru", 100)] 100 0 0 0 =
      some { symbol := "S", current_price := 100, predicted_price := 100,
             change_percent := 0, confidence := 95,
             model_contributions := [("lstm", 100), ("gru", 429/10)],
             upper_bound := 203/2, lower_bound := 197/2, quality := "medium" } ∧
    ((contribAux 0 [("lstm", (100:ℚ)), ("gru", 100)]).map Prod.snd).sum = 1429/10 ∧
    round1 (WEIGHTS "lstm" * 100 / (WEIGHTS "lstm" + WEIGHTS "gru")) = 571/10 := by
  refine ⟨?_, ?_, ?_⟩
  · norm_num [ensemble_predict, contribAux, WEIGHTS, totalWeight, weightedSum, predMean,
      round1, round2, roundq, (by decide : ¬("gru" : String) = "lstm"),
      (by decide : ¬("lstm" : String) = "gru")]
    simp
  · norm_num [contribAux, WEIGHTS, round1, roundq,
      (by decide : ¬("gru" : String) = "lstm")]
  · norm_num [WEIGHTS, round1, roundq, (by decide : ¬("gru" : String) = "lstm")]

theorem buyScore_nonneg (signals : List SignalResult)
    (hpos : ∀ s ∈ signals, 0 ≤ s.strength) : 0 ≤ buyScore signals := by
  apply List.sum_nonneg
  intro x hx
  simp only [List.mem_map] at hx
  obtain ⟨s, hs, rfl⟩ := hx
  exact hpos s (List.mem_of_mem_filter hs)

theorem sellScore_nonneg (signals : List SignalResult)
    (hpos : ∀ s ∈ signals, 0 ≤ s.strength) : 0 ≤ sellScore signals := by
  apply List.sum_nonneg
  intro x hx
  simp only [List.mem_map] at hx
  obtain ⟨s, hs, rfl⟩ := hx
  exact hpos s (List.mem_of_mem_filter hs)

theorem holdScore_nonneg (signals : List SignalResult)
    (hpos : ∀ s ∈ signals, 0 ≤ s.strength) : 0 ≤ holdScore signals := by
  apply List.sum_nonneg
  intro x hx
  simp only [List.mem_map] at hx
  obtain ⟨s, hs, rfl⟩ := hx
  exact hpos s (List.mem_of_mem_filter hs)

theorem bucket_strength_bounds {bucket total : ℚ} (hb : 0 ≤ bucket)
    (hbt : bucket ≤ total) (ht : 0 < total) :
    0 ≤ round1 (bucket / total * 100) ∧ round1 (bucket / total * 100) ≤ 100 := by
  have h1 : 0 ≤ bucket / total * 100 := by
    have := div_nonneg hb ht.le
    linarith
  have h2 : bucket / total * 100 ≤ 100 := by
    have : bucket / total ≤ 1 := (div_le_one ht).mpr hbt
    linarith
  exact ⟨round1_nonneg h1, round1_le_100 h2⟩

theorem get_overall_signal_eq (signals : List SignalResult) (hne : signals ≠ [])
    (htne : ¬(totalScore signals = 0)) :
    get_overall_signal signals =
      (if buyScore signals > sellScore signals ∧ buyScore signals > holdScore signals then
        some ⟨"buy", round1 (buyScore signals / totalScore signals * 100),
          "Bullish signals from " ++
            toString (signals.filter (fun s => s.signal = "buy")).length ++ " indicators"⟩
      else if sellScore signals > buyScore signals ∧ sellScore signals > holdScore signals then
        some ⟨"sell", round1 (sellScore signals / totalScore signals * 100),
          "Bearish signals from " ++
            toString (signals.filter (fun s => s.signal = "sell")).length ++ " indicators"⟩
      else
        some ⟨"hold", round1 (holdScore signals / totalScore signals * 100),
          "Mixed signals - consider waiting"⟩) := by
  unfold get_overall_signal
  rw [if_neg hne]
  simp only []
  rw [if_neg (by unfold totalScore at htne; exact htne)]
  unfold totalScore
  rfl

/-- C3 (counterexample): on the non-empty signal set consisting of one hold
signal of strength 0, the total of the strengths is zero and every branch of
`get_overall_signal` divides by it, so the source raises `ZeroDivisionError`
(modelled as `none`) instead of returning the hold result the claim
requires. -/
theorem C3_counterexample :
    get_overall_signal [⟨"hold", 0, "x"⟩] = none ∧
      ∀ r : SignalResult, get_overall_signal [⟨"hold", 0, "x"⟩] ≠ some r := by
  have h : get_overall_signal [⟨"hold", 0, "x"⟩] = none := by
    unfold get_overall_signal
    rw [if_neg (by simp)]
    simp [buyScore, sellScore, holdScore]
  exact ⟨h, fun r hr => by rw [h] at hr; exact Option.noConfusion hr⟩

/-- C3 (amended): for every signal set whose strengths are nonnegative and
total to a positive sum, the overall signal is the bucket (buy, sell) whose
summed strength strictly exceeds both other buckets, with strength equal to
that bucket's sum over the total, ×100, rounded to one decimal; when
neither buy nor sell is strictly greatest (hold greatest, or any tie) the
result is hold with the hold bucket's relative strength; the reported
strength is always in [0,100]; and the empty signal set yields
hold(50, "Insufficient data for analysis").  (The claim fails only when the
strengths total zero: the source then raises `ZeroDivisionError`.) -/
theorem C3_overall_signal (signals : List SignalResult)
    (hne : signals ≠ []) (hpos : ∀ s ∈ signals, 0 ≤ s.strength)
    (htot : 0 < totalScore signals) :
    get_overall_signal [] = some ⟨"hold", 50, "Insufficient data for analysis"⟩ ∧
    get_overall_signal signals ≠ none ∧
    ∀ r, get_overall_signal signals = some r →
      (0 ≤ r.strength ∧ r.strength ≤ 100) ∧
      (buyScore signals > sellScore signals ∧ buyScore signals > holdScore signals →
        r.signal = "buy" ∧
          r.strength = round1 (buyScore signals / totalScore signals * 100)) ∧
      (sellScore signals > buyScore signals ∧ sellScore signals > holdScore signals →
        r.signal = "sell" ∧
          r.strength = round1 (sellScore signals / totalScore signals * 100)) ∧
      (¬(buyScore signals > sellScore signals ∧ buyScore signals > holdScore signals) →
        ¬(sellScore signals > buyScore signals ∧ sellScore signals > holdScore signals) →
        r.signal = "hold" ∧
          r.strength = round1 (holdScore signals / totalScore signals * 100)) := by
  have hb := buyScore_nonneg signals hpos
  have hsl := sellScore_nonneg signals hpos
  have hh := holdScore_nonneg signals hpos
  have htsum : totalScore signals = buyScore signals + sellScore signals + holdScore signals :=
    rfl
  have heq := get_overall_signal_eq signals hne (ne_of_gt htot)
  refine ⟨rfl, ?_, ?_⟩
  · rw [heq]
    by_cases h1 : buyScore signals > sellScore signals ∧ buyScore signals > holdScore signals
    · rw [if_pos h1]; exact Option.some_ne_none _
    · rw [if_neg h1]
      by_cases h2 : sellScore signals > buyScore signals ∧ sellScore signals > holdScore signals
      · rw [if_pos h2]; exact Option.some_ne_none _
      · rw [if_neg h2]; exact Option.some_ne_none _
  · intro r hr
    rw [heq] at hr
    by_cases h1 : buyScore signals > sellScore signals ∧ buyScore signals > holdScore signals
    · rw [if_pos h1] at hr
      obtain rfl := Option.some_injective _ hr.symm
      refine ⟨bucket_strength_bounds hb (by rw [htsum]; linarith) htot,
        fun _ => ⟨rfl, rfl⟩, fun h2 => absurd h1 (by rcases h2 with ⟨a, b⟩; push_neg; intro; linarith),
        fun hc _ => absurd h1 hc⟩
    · rw [if_neg h1] at hr
      by_cases h2 : sellScore signals > buyScore signals ∧ sellScore signals > holdScore signals
      · rw [if_pos h2] at hr
        obtain rfl := Option.some_injective _ hr.symm
        refine ⟨bucket_strength_bounds hsl (by rw [htsum]; linarith) htot,
          fun hc => absurd hc h1, fun _ => ⟨rfl, rfl⟩,
          fun _ hc => absurd h2 hc⟩
      · rw [if_neg h2] at hr
        obtain rfl := Option.some_injective _ hr.symm
        exact ⟨bucket_strength_bounds hh (by rw [htsum]; linarith) htot,
          fun hc => absurd hc h1, fun hc => absurd hc h2, fun _ _ => ⟨rfl, rfl⟩⟩

/-- C3 (witness): the amended statement applied to a concrete two-signal
set (an 80-strength buy and a 50-strength hold). -/
theorem C3_overall_signal_witness :
    ∃ r, get_overall_signal [⟨"buy", 80, "r"⟩, ⟨"hold", 50, "q"⟩] = some r ∧
      0 ≤ r.strength ∧ r.strength ≤ 100 := by
  have h := C3_overall_signal [⟨"buy", 80, "r"⟩, ⟨"hold", 50, "q"⟩]
    (by simp) (by intro s hs; fin_cases hs <;> norm_num)
    (by norm_num [totalScore, buyScore, sellScore, holdScore,
      (by decide : ¬("hold" : String) = "buy"), (by decide : ¬("hold" : String) = "sell"),
      (by decide : ¬("buy" : String) = "sell")])
  obtain ⟨-, hnn, hall⟩ := h
  obtain ⟨r, hr⟩ := Option.ne_none_iff_exists.mp hnn
  exact ⟨r, hr.symm, (hall r hr.symm).1⟩

/-- C4 (counterexample): the source stores `round(confidence, 1)`, so the
claimed exact equality with `clamp(100 − 200·CV, 50, 95)` fails whenever
the clamp value has more than one decimal: for predictions
`{lstm: 100, xgboost: 80}` (mean 90, population std 10, CV = 1/9) the clamp
value is 700/9 = 77.77…, while the code returns 77.8. -/
theorem C4_counterexample :
    (ensemble_predict "S" [("lstm",100),("xgboost",80)] 100 0 10 0).map
        PredictionResult.confidence = some (389/5) ∧
    max 50 (min 95 (100 - 200 * ((10:ℚ) / predMean [("lstm",(100:ℚ)),("xgboost",80)]))) =
      700/9 ∧
    (389/5 : ℚ) ≠ 700/9 ∧
    (0:ℚ) ≤ 10 ∧ (10:ℚ) ^ 2 = predVariance [("lstm",(100:ℚ)),("xgboost",80)] := by
  refine ⟨?_, ?_, by norm_num, by norm_num, ?_⟩
  · norm_num [ensemble_predict, contribAux, WEIGHTS, totalWeight, weightedSum, predMean,
      round1, round2, roundq, (by decide : ¬("xgboost" : String) = "lstm"),
      (by decide : ¬("xgboost" : String) = "gru"),
      (by decide : ¬("lstm" : String) = "gru")]
    simp
  · norm_num [predMean]
  · norm_num [predVariance, predMean]

/-- C4 (amended): with two or more model predictions and a nonzero current
price, the stored confidence equals clamp(100 − 200·CV, 50, 95) rounded to
one decimal, where CV is the population standard deviation of the
predictions over their mean (the code guards the mean-zero case with
CV = 0, which coincides with the rational convention `s / 0 = 0`); with
exactly one model the confidence is 60; for `{lstm: 100, gru: 100}` at
current price 100 the confidence is 95 (the clamp upper bound, CV = 0),
the predicted price is 100 and the change percent is 0; and for
`{lstm: 110, random_forest: 90}` the confidence is 80, strictly below
95. -/
theorem C4_confidence :
    (∀ (sym : String) (preds : List (String × ℚ)) (cp demo s v : ℚ),
        2 ≤ preds.length → cp ≠ 0 → 0 ≤ s → s ^ 2 = predVariance preds →
        (ensemble_predict sym preds cp demo s v).map PredictionResult.confidence =
          some (round1 (max 50 (min 95 (100 - 200 * (s / predMean preds)))))) ∧
    (∀ (sym name : String) (p cp demo s v : ℚ), cp ≠ 0 →
        (ensemble_predict sym [(name, p)] cp demo s v).map PredictionResult.confidence =
          some 60) ∧
    ((ensemble_predict "S" [("lstm",100),("gru",100)] 100 0 0 0).map
        (fun r => (r.confidence, r.predicted_price, r.change_percent)) =
          some (95, 100, 0) ∧
      (0:ℚ) ≤ 0 ∧ (0:ℚ) ^ 2 = predVariance [("lstm",(100:ℚ)),("gru",100)]) ∧
    ((ensemble_predict "S" [("lstm",110),("random_forest",90)] 100 0 10 0).map
        PredictionResult.confidence = some 80 ∧ (80:ℚ) < 95 ∧
      (0:ℚ) ≤ 10 ∧ (10:ℚ) ^ 2 = predVariance [("lstm",(110:ℚ)),("random_forest",90)]) := by
  refine ⟨?_, ?_, ⟨?_, by norm_num, ?_⟩, ⟨?_, by norm_num, by norm_num, ?_⟩⟩
  · intro sym preds cp demo s v hlen hcp hs hvar
    have hne : preds ≠ [] := by
      intro h
      rw [h] at hlen
      simp at hlen
    have hlen1 : 1 < preds.length := hlen
    simp only [ensemble_predict, if_neg hne, if_neg hcp, if_pos hlen1, Option.map_some]
    by_cases hm : predMean preds = 0
    · simp [hm, div_zero]
    · simp only [if_neg hm]
      rw [mul_comm (s / predMean preds) 200]
      rfl
  · intro sym name p cp demo s v hcp
    have h1 : ¬(1 < ([(name, p)] : List (String × ℚ)).length) := by simp
    simp only [ensemble_predict, if_neg (List.cons_ne_nil _ _), if_neg hcp, if_neg h1,
      Option.map_some]
    norm_num [round1, roundq]
  · norm_num [ensemble_predict, contribAux, WEIGHTS, totalWeight, weightedSum, predMean,
      round1, round2, roundq, (by decide : ¬("gru" : String) = "lstm"),
      (by decide : ¬("lstm" : String) = "gru")]
    simp
  · norm_num [predVariance, predMean]
  · norm_num [ensemble_predict, contribAux, WEIGHTS, totalWeight, weightedSum, predMean,
      round1, round2, roundq, (by decide : ¬("random_forest" : String) = "lstm"),
      (by decide : ¬("random_forest" : String) = "gru"),
      (by decide : ¬("random_forest" : String) = "xgboost"),
      (by decide : ¬("lstm" : String) = "gru")]
    simp
  · norm_num [predVariance, predMean]

/-- C4 (witness): the general two-or-more-models conjunct applied to the
concrete predictions `{lstm: 100, gru: 100}` with s = 0. -/
theorem C4_confidence_witness :
    (ensemble_predict "S" [("lstm",100),("gru",100)] 100 0 0 0).map
        PredictionResult.confidence =
      some (round1 (max 50 (min 95 (100 - 200 *
        ((0:ℚ) / predMean [("lstm",(100:ℚ)),("gru",100)]))))) :=
  C4_confidence.1 "S" [("lstm",100),("gru",100)] 100 0 0 0 (by norm_num) (by norm_num)
    le_rfl (by norm_num [predVariance, predMean])

theorem WEIGHTS_pos (name : String) : 0 < WEIGHTS name := by
  unfold WEIGHTS
  split_ifs <;> norm_num

theorem weightedSum_nonneg (preds : List (String × ℚ))
    (hp : ∀ q ∈ preds, 0 ≤ q.2) : 0 ≤ weightedSum preds := by
  apply List.sum_nonneg
  intro x hx
  simp only [List.mem_map] at hx
  obtain ⟨p, hmem, rfl⟩ := hx
  exact mul_nonneg (hp p hmem) (WEIGHTS_pos p.1).le

/-- C5 (counterexample): a model may predict a negative price, and then the
margin inverts the bounds: for predictions `{lstm: -100}` at current price
100 the code returns predicted_price = -100 with upper_bound = -101.5 <
predicted_price (for any volatility the margin is at least 1.5; the value
v = 0 used here is the honest sample standard deviation of the percentage
returns of the flat close series [100, 100, 100]). -/
theorem C5_counterexample :
    (ensemble_predict "S" [("lstm",-100)] 100 0 0 0).map
        (fun r => (r.upper_bound, r.predicted_price, r.lower_bound)) =
      some (-203/2, -100, -197/2) ∧
    (-203/2 : ℚ) < -100 ∧
    sampleVariance (pctChanges [100,100,100]) = 0 := by
  refine ⟨?_, by norm_num, ?_⟩
  · norm_num [ensemble_predict, contribAux, WEIGHTS, totalWeight, weightedSum, predMean,
      round1, round2, roundq]
  · norm_num [sampleVariance, pctChanges]

/-- C5 (amended): whenever every supplied model prediction is nonnegative
and the current price is nonnegative (with the demo draw inside its
uniform(-2, 3) support), every `PredictionResult` the blender produces
satisfies lower_bound ≤ predicted_price ≤ upper_bound; a negative model
prediction violates the invariant. -/
theorem C5_bounds (sym : String) (preds : List (String × ℚ)) (cp demo s v : ℚ)
    (hp : ∀ q ∈ preds, 0 ≤ q.2) (hcp : 0 ≤ cp) (hd1 : -2 ≤ demo) (hd2 : demo ≤ 3) :
    ∀ r, ensemble_predict sym preds cp demo s v = some r → boundsOk r := by
  intro r hr
  by_cases hne : preds = []
  · subst hne
    simp only [ensemble_predict, if_pos rfl] at hr
    obtain rfl : _ = r := Option.some_injective _ hr
    unfold boundsOk
    have hPpos : 0 ≤ cp * (1 + demo / 100) := mul_nonneg hcp (by linarith)
    constructor
    · exact round2_mono (by nlinarith)
    · exact round2_mono (by nlinarith)
  · by_cases hzero : cp = 0
    · rw [ensemble_predict, if_neg hne, if_pos hzero] at hr
      exact absurd hr (by simp)
    · simp only [ensemble_predict, if_neg hne, if_neg hzero] at hr
      obtain rfl : _ = r := Option.some_injective _ hr
      unfold boundsOk
      have hpredpos :
          0 ≤ (if 0 < totalWeight preds then weightedSum preds / totalWeight preds else cp) := by
        split_ifs with htw
        · exact div_nonneg (weightedSum_nonneg preds hp) htw.le
        · exact hcp
      have hm0 : (0:ℚ) ≤ max (3/2 : ℚ) (v * 100 * 2) :=
        le_trans (by norm_num) (le_max_left _ _)
      set P := if 0 < totalWeight preds then weightedSum preds / totalWeight preds else cp
      set M := max (3/2 : ℚ) (v * 100 * 2)
      constructor
      · exact round2_mono (by nlinarith [mul_nonneg hpredpos hm0])
      · exact round2_mono (by nlinarith [mul_nonneg hpredpos hm0])

/-- C5 (witness): the amended bound invariant applied to the concrete
single-model input `{lstm: 100}` at current price 100. -/
theorem C5_bounds_witness :
    boundsOk { symbol := "S", current_price := 100, predicted_price := 100,
               change_percent := 0, confidence := 60,
               model_contributions := [("lstm", 100)],
               upper_bound := 203/2, lower_bound := 197/2, quality := "low" } :=
  C5_bounds "S" [("lstm", 100)] 100 0 0 0
    (by intro q hq; fin_cases hq; norm_num) (by norm_num) (by norm_num) (by norm_num) _
    (by norm_num [ensemble_predict, contribAux, WEIGHTS, totalWeight, weightedSum, predMean,
          round1, round2, roundq])

theorem min_max_clamp (x : ℚ) : min 95 (max 30 x) = max 30 (min 95 x) := by
  simp only [min_def, max_def]
  split_ifs <;> linarith

theorem quality_iff (S : ℚ) :
    ((if 75 ≤ S then "high" else if 55 ≤ S then "medium" else "low") = "high" ↔ 75 ≤ S) ∧
    ((if 75 ≤ S then "high" else if 55 ≤ S then "medium" else "low") = "medium" ↔
      55 ≤ S ∧ S < 75) ∧
    ((if 75 ≤ S then "high" else if 55 ≤ S then "medium" else "low") = "low" ↔ S < 55) := by
  have hhm : ¬("high" : String) = "medium" := by decide
  have hhl : ¬("high" : String) = "low" := by decide
  have hml : ¬("medium" : String) = "low" := by decide
  have hmh : ¬("medium" : String) = "high" := by decide
  have hlh : ¬("low" : String) = "high" := by decide
  have hlm : ¬("low" : String) = "medium" := by decide
  by_cases h1 : 75 ≤ S
  · simp only [if_pos h1]
    refine ⟨by simp [h1], ?_, ?_⟩
    · simp only [hhm, false_iff]
      intro h
      linarith [h.2]
    · simp only [hhl, false_iff]
      intro h
      linarith
  · by_cases h2 : 55 ≤ S
    · simp only [if_neg h1, if_pos h2]
      refine ⟨by simp [hmh, h1], by simp [h2, lt_of_not_le h1], ?_⟩
      simp only [hml, false_iff]
      intro h
      linarith
    · simp only [if_neg h1, if_neg h2]
      refine ⟨by simp [hlh, h1], ?_, by simp [lt_of_not_le h2]⟩
      simp only [hlm, false_iff]
      intro h
      exact h2 h.1

/-- C7: for every non-empty indicator set and days_ahead ≥ 1, the fallback
predictor's confidence score equals
clamp(50 + 30·|weighted_signal| + (5 if volume_ratio > 1.2 else 0)
− 4·(days_ahead − 1), 30, 95), quality is high iff score ≥ 75, medium iff
55 ≤ score < 75 and low iff score < 55; for the empty indicator set the
quality is low and the confidence exactly 50. -/
theorem C7_fallback_confidence :
    (∀ (cp : ℚ) (inds : List (String × ℚ)) (d : ℤ) (noise dvol : ℚ),
        inds ≠ [] → 1 ≤ d →
        ((generate_prediction cp inds d noise dvol).2.2 =
          max 30 (min 95 (50 + 30 * |weightedSignal cp inds| +
            (if 6/5 < getInd inds "volume_ratio" 1 then 5 else 0) -
              4 * ((d : ℚ) - 1))) ∧
        ((generate_prediction cp inds d noise dvol).2.1 = "high" ↔
          75 ≤ (generate_prediction cp inds d noise dvol).2.2) ∧
        ((generate_prediction cp inds d noise dvol).2.1 = "medium" ↔
          55 ≤ (generate_prediction cp inds d noise dvol).2.2 ∧
            (generate_prediction cp inds d noise dvol).2.2 < 75) ∧
        ((generate_prediction cp inds d noise dvol).2.1 = "low" ↔
          (generate_prediction cp inds d noise dvol).2.2 < 55))) ∧
    (∀ (cp : ℚ) (d : ℤ) (noise dvol : ℚ),
        (generate_prediction cp ([] : List (String × ℚ)) d noise dvol).2.1 = "low" ∧
        (generate_prediction cp [] d noise dvol).2.2 = 50) := by
  constructor
  · intro cp inds d noise dvol hne hd
    simp only [generate_prediction, if_neg hne]
    refine ⟨?_, (quality_iff _).1, (quality_iff _).2.1, (quality_iff _).2.2⟩
    have harg :
        (if 6/5 < getInd inds "volume_ratio" 1 then 50 + |weightedSignal cp inds| * 30 + 5
          else 50 + |weightedSignal cp inds| * 30) - ((d : ℚ) - 1) * 4 =
        50 + 30 * |weightedSignal cp inds| +
          (if 6/5 < getInd inds "volume_ratio" 1 then 5 else 0) - 4 * ((d : ℚ) - 1) := by
      by_cases hvr : 6/5 < getInd inds "volume_ratio" 1
      · rw [if_pos hvr, if_pos hvr]
        ring
      · rw [if_neg hvr, if_neg hvr]
        ring
    rw [harg, min_max_clamp]
  · intro cp d noise dvol
    exact ⟨rfl, rfl⟩

/-- C7 (witness): the confidence formula applied to the concrete indicator
set `{rsi: 20}` with one day ahead. -/
theorem C7_fallback_witness :
    (generate_prediction 100 [("rsi",20)] 1 0 0).2.2 =
      max 30 (min 95 (50 + 30 * |weightedSignal 100 [("rsi",(20:ℚ))]| +
        (if 6/5 < getInd [("rsi",(20:ℚ))] "volume_ratio" 1 then 5 else 0) -
          4 * (((1:ℤ) : ℚ) - 1))) :=
  (C7_fallback_confidence.1 100 [("rsi",20)] 1 0 0 (by simp) (by norm_num)).1

theorem rollingMean_length (w : ℕ) (xs : List ℚ) :
    (rollingMean w xs).length = xs.length := by
  unfold rollingMean
  rw [List.length_map, List.length_range]

theorem rollingMean_get? (w : ℕ) (xs : List ℚ) (i : ℕ) :
    (rollingMean w xs).get? i =
      if i < xs.length then
        some (if w ≤ i + 1 then some (((xs.drop (i + 1 - w)).take w).sum / w) else none)
      else none := by
  unfold rollingMean
  rw [List.get?_eq_getElem?, List.getElem?_map]
  by_cases hi : i < xs.length
  · rw [List.getElem?_range hi, if_pos hi]
    rfl
  · rw [List.getElem?_eq_none (by simpa using Nat.le_of_not_lt hi), if_neg hi]
    rfl

theorem rollingMean_nonneg {w : ℕ} {xs : List ℚ} (hxs : ∀ x ∈ xs, 0 ≤ x) {i : ℕ} {a : ℚ}
    (h : (rollingMean w xs).get? i = some (some a)) : 0 ≤ a := by
  rw [rollingMean_get?] at h
  by_cases hi : i < xs.length
  · rw [if_pos hi] at h
    have h2 := Option.some_injective _ h
    by_cases hw : w ≤ i + 1
    · rw [if_pos hw] at h2
      obtain rfl : _ = a := Option.some_injective _ h2
      apply div_nonneg
      · apply List.sum_nonneg
        intro x hx
        exact hxs x (((List.take_sublist _ _).trans (List.drop_sublist _ _)).subset hx)
      · exact_mod_cast Nat.zero_le w
    · rw [if_neg hw] at h2
      exact absurd h2 (by simp)
  · rw [if_neg hi] at h
    exact absurd h (by simp)

theorem gains_length (prices : List ℚ) (hne : prices ≠ []) :
    (gains prices).length = prices.length := by
  cases prices with
  | nil => exact absurd rfl hne
  | cons p ps =>
    simp [gains]

theorem losses_length (prices : List ℚ) (hne : prices ≠ []) :
    (losses prices).length = prices.length := by
  cases prices with
  | nil => exact absurd rfl hne
  | cons p ps =>
    simp [losses]

theorem gains_nonneg (prices : List ℚ) : ∀ x ∈ gains prices, 0 ≤ x := by
  intro x hx
  rcases List.mem_cons.mp hx with rfl | hx2
  · exact le_refl 0
  · obtain ⟨n, hn⟩ := List.mem_iff_get?.mp hx2
    rw [List.get?_zipWith'] at hn
    cases ha : prices.tail.get? n with
    | none =>
      rw [ha] at hn
      simp only [Option.map_none', Option.none_bind] at hn
      exact Option.noConfusion hn
    | some a =>
      cases hb : prices.get? n with
      | none =>
        rw [ha, hb] at hn
        simp only [Option.map_some', Option.some_bind, Option.map_none'] at hn
        exact Option.noConfusion hn
      | some b =>
        rw [ha, hb] at hn
        simp only [Option.map_some', Option.some_bind] at hn
        have h3 := Option.some_injective _ hn
        rw [← h3]
        exact le_max_right _ _

theorem losses_nonneg (prices : List ℚ) : ∀ x ∈ losses prices, 0 ≤ x := by
  intro x hx
  rcases List.mem_cons.mp hx with rfl | hx2
  · exact le_refl 0
  · obtain ⟨n, hn⟩ := List.mem_iff_get?.mp hx2
    rw [List.get?_zipWith'] at hn
    cases ha : prices.tail.get? n with
    | none =>
      rw [ha] at hn
      simp only [Option.map_none', Option.none_bind] at hn
      exact Option.noConfusion hn
    | some a =>
      cases hb : prices.get? n with
      | none =>
        rw [ha, hb] at hn
        simp only [Option.map_some', Option.some_bind, Option.map_none'] at hn
        exact Option.noConfusion hn
      | some b =>
        rw [ha, hb] at hn
        simp only [Option.map_some', Option.some_bind] at hn
        have h3 := Option.some_injective _ hn
        rw [← h3]
        exact le_max_right _ _

theorem rsiRaw_length (prices : List ℚ) (period : ℕ) (hne : prices ≠ []) :
    (rsiRaw prices period).length = prices.length := by
  unfold rsiRaw
  rw [List.length_zipWith, rollingMean_length, rollingMean_length,
    gains_length prices hne, losses_length prices hne, min_self]

/-- C2 (counterexample): for a series shorter than period + 1 bars the
source returns a series of `NaN`, not of the neutral 50: on the one-price
series `[1]` the RSI is `[NaN]`. -/
theorem C2_counterexample :
    calculate_rsi [(1:ℚ)] 14 = [none] ∧ ((none : Option ℚ) ≠ some 50) := by
  constructor
  · unfold calculate_rsi
    rw [if_pos (by norm_num)]
    rfl
  · simp

/-- C2 (amended): for fewer than period + 1 prices `calculate_rsi` returns
`NaN` (undefined) at every position — not 50; with at least period + 1
prices every position is defined with a value in [0, 100], and every
position whose rolling loss average is zero is filled with the neutral
50. -/
theorem C2_rsi_range :
    (∀ (prices : List ℚ) (period : ℕ), prices.length < period + 1 →
        calculate_rsi prices period = List.replicate prices.length none) ∧
    (∀ (prices : List ℚ) (period i : ℕ), period + 1 ≤ prices.length →
        i < prices.length →
        ∃ v, (calculate_rsi prices period).get? i = some (some v) ∧ 0 ≤ v ∧ v ≤ 100) ∧
    (∀ (prices : List ℚ) (period i : ℕ), period + 1 ≤ prices.length →
        (rollingMean period (losses prices)).get? i = some (some 0) →
        (calculate_rsi prices period).get? i = some (some 50)) := by
  refine ⟨?_, ?_, ?_⟩
  · intro prices period h
    unfold calculate_rsi
    rw [if_pos h]
  · intro prices period i hlen hi
    have hnlt : ¬(prices.length < period + 1) := not_lt.mpr hlen
    have hnep : prices ≠ [] := by
      intro h
      rw [h] at hlen
      simp at hlen
    unfold calculate_rsi
    rw [if_neg hnlt, List.get?_eq_getElem?, List.getElem?_map]
    obtain ⟨x, hx⟩ : ∃ x, (rsiRaw prices period)[i]? = some x := by
      rw [List.getElem?_eq_getElem (by rw [rsiRaw_length prices period hnep]; exact hi)]
      exact ⟨_, rfl⟩
    rw [hx]
    refine ⟨x.getD 50, rfl, ?_⟩
    cases x with
    | none => norm_num
    | some rv =>
      have hx2 : (rsiRaw prices period).get? i = some (some rv) := by
        rw [List.get?_eq_getElem?, hx]
      unfold rsiRaw at hx2
      rw [List.get?_zipWith'] at hx2
      cases hg : (rollingMean period (gains prices)).get? i with
      | none =>
        rw [hg] at hx2
        simp only [Option.map_none', Option.none_bind] at hx2
        exact Option.noConfusion hx2
      | some gopt =>
        cases hl : (rollingMean period (losses prices)).get? i with
        | none =>
          rw [hg, hl] at hx2
          simp only [Option.map_some', Option.some_bind, Option.map_none'] at hx2
          exact Option.noConfusion hx2
        | some lopt =>
          rw [hg, hl] at hx2
          simp only [Option.map_some', Option.some_bind] at hx2
          have hx3 := Option.some_injective _ hx2
          cases gopt with
          | none => exact Option.noConfusion hx3
          | some gv =>
            cases lopt with
            | none => exact Option.noConfusion hx3
            | some lv =>
              have hx5 : (if lv = 0 then (none : Option ℚ)
                  else some (100 - 100 / (1 + gv / lv))) = some rv := hx3
              by_cases hlz : lv = 0
              · rw [if_pos hlz] at hx5
                exact Option.noConfusion hx5
              · rw [if_neg hlz] at hx5
                have hx4 := Option.some_injective _ hx5
                have hgv : 0 ≤ gv := rollingMean_nonneg (gains_nonneg prices) hg
                have hlv : 0 ≤ lv := rollingMean_nonneg (losses_nonneg prices) hl
                have hlvpos : 0 < lv := lt_of_le_of_ne hlv (Ne.symm hlz)
                have hrs : 0 ≤ gv / lv := div_nonneg hgv hlv
                have h1p : (0:ℚ) < 1 + gv / lv := by linarith
                simp only [Option.getD_some]
                rw [← hx4]
                constructor
                · have hdle : 100 / (1 + gv / lv) ≤ 100 :=
                    div_le_self (by norm_num) (by linarith)
                  linarith
                · have hdnn : 0 ≤ 100 / (1 + gv / lv) := by positivity
                  linarith
  · intro prices period i hlen hl0
    have hnlt : ¬(prices.length < period + 1) := not_lt.mpr hlen
    have hnep : prices ≠ [] := by
      intro h
      rw [h] at hlen
      simp at hlen
    have hi : i < prices.length := by
      rw [rollingMean_get?] at hl0
      by_cases hi2 : i < (losses prices).length
      · rwa [losses_length prices hnep] at hi2
      · rw [if_neg hi2] at hl0
        exact absurd hl0 (by simp)
    have hgsome : ∃ gv, (rollingMean period (gains prices)).get? i = some (some gv) := by
      have hw : period ≤ i + 1 := by
        rw [rollingMean_get?, if_pos (by rw [losses_length prices hnep]; exact hi)] at hl0
        have h2 := Option.some_injective _ hl0
        by_cases hw2 : period ≤ i + 1
        · exact hw2
        · rw [if_neg hw2] at h2
          exact absurd h2 (by simp)
      rw [rollingMean_get?, if_pos (by rw [gains_length prices hnep]; exact hi), if_pos hw]
      exact ⟨_, rfl⟩
    obtain ⟨gv, hg⟩ := hgsome
    have hraw : (rsiRaw prices period).get? i = some none := by
      unfold rsiRaw
      rw [List.get?_zipWith', hg, hl0]
      simp
    unfold calculate_rsi
    rw [if_neg hnlt, List.get?_eq_getElem?, List.getElem?_map, ← List.get?_eq_getElem?, hraw]
    rfl

/-- C2 (witness): position 0 of the RSI of fifteen constant prices is
defined and lies in [0, 100] (it is in fact the neutral 50). -/
theorem C2_rsi_witness :
    ∃ v, (calculate_rsi (List.replicate 15 (1:ℚ)) 14).get? 0 = some (some v) ∧
      0 ≤ v ∧ v ≤ 100 :=
  C2_rsi_range.2.1 (List.replicate 15 (1:ℚ)) 14 0 (by simp) (by simp)

theorem true_range_length (high low close : List ℚ) :
    (true_range high low close).length = high.length := by
  unfold true_range
  rw [List.length_map, List.length_range]

theorem cumsumFrom_length (ys : List ℚ) : ∀ acc : ℚ, (cumsumFrom acc ys).length = ys.length := by
  induction ys with
  | nil => intro acc; rfl
  | cons y ys ih =>
    intro acc
    simp [cumsumFrom, ih]

theorem cumsumFrom_get? (ys : List ℚ) : ∀ (acc : ℚ) (i : ℕ), i < ys.length →
    (cumsumFrom acc ys).get? i = some (acc + (ys.take (i + 1)).sum) := by
  induction ys with
  | nil =>
    intro acc i h
    simp at h
  | cons y ys ih =>
    intro acc i h
    cases i with
    | zero => simp [cumsumFrom]
    | succ n =>
      rw [show cumsumFrom acc (y :: ys) = (acc + y) :: cumsumFrom (acc + y) ys from rfl]
      rw [List.get?_cons_succ, ih (acc + y) n (by simpa using h)]
      rw [List.take_succ_cons, List.sum_cons]
      congr 1
      ring

theorem sum_take_eq_range_sum (ys : List ℚ) (g : ℕ → ℚ)
    (hpt : ∀ j, j < ys.length → ys.get? j = some (g j)) :
    ∀ i, i ≤ ys.length → (ys.take i).sum = ((List.range i).map g).sum := by
  intro i
  induction i with
  | zero => simp
  | succ n ih =>
    intro h
    have hn : n < ys.length := h
    rw [List.sum_take_succ _ n hn, List.range_succ, List.map_append, List.sum_append,
      ih (le_of_lt hn)]
    have h2 := hpt n hn
    rw [List.get?_eq_get hn] at h2
    have h3 := Option.some_injective _ h2
    simpa using h3

theorem obvDirections_length (closes : List ℚ) (hne : closes ≠ []) :
    (obvDirections closes).length = closes.length := by
  cases closes with
  | nil => exact absurd rfl hne
  | cons c0 cs => simp [obvDirections]

theorem obv_entry (closes vols : List ℚ) (hne : closes ≠ [])
    (hlen : vols.length = closes.length) (j : ℕ) (hj : j < closes.length) :
    (List.zipWith (· * ·) (obvDirections closes) vols).get? j =
      some (obvTerm closes vols j) := by
  rw [List.get?_zipWith']
  cases closes with
  | nil => exact absurd rfl hne
  | cons c0 cs =>
    cases j with
    | zero =>
      obtain ⟨v0, hv0⟩ : ∃ v0, vols.get? 0 = some v0 := by
        cases vols with
        | nil => simp at hlen
        | cons v vs => exact ⟨v, rfl⟩
      rw [show (obvDirections (c0 :: cs)).get? 0 = some 0 from rfl, hv0]
      simp [obvTerm]
    | succ n =>
      rw [show (obvDirections (c0 :: cs)).get? (n + 1) =
        (List.zipWith (fun a b => qsign (a - b)) cs (c0 :: cs)).get? n from rfl]
      rw [List.get?_zipWith']
      have hn1 : n < cs.length := by simpa using hj
      have ha : cs.get? n = some (cs.getD n 0) := get?_eq_some_getD hn1
      have hb : (c0 :: cs).get? n = some ((c0 :: cs).getD n 0) :=
        get?_eq_some_getD (by simp; omega)
      have hvn : vols.get? (n + 1) = some (vols.getD (n + 1) 0) :=
        get?_eq_some_getD (by rw [hlen]; exact hj)
      rw [ha, hb, hvn]
      simp only [Option.map_some', Option.some_bind]
      unfold obvTerm
      simp [List.getD_cons_succ]

/-- C6 (counterexample): with two bars the ATR is `NaN` at every position —
its rolling mean needs period = 14 bars — contradicting the claim that two
bars suffice. -/
theorem C6_counterexample :
    calculate_atr [(2:ℚ),2] [1,1] [1,2] 14 = [none, none] ∧
      (none : Option ℚ) ∈ calculate_atr [(2:ℚ),2] [1,1] [1,2] 14 := by
  have h : calculate_atr [(2:ℚ),2] [1,1] [1,2] 14 = [none, none] := by
    norm_num [calculate_atr, rollingMean, true_range, List.range_succ]
  exact ⟨h, by rw [h]; simp⟩

/-- C6 (amended): the ATR is defined (non-`NaN`) at position `i` exactly
when `period ≤ i + 1` — so it needs `period` (= 14) bars, not 2 — while the
OBV is defined at every position of any non-empty series, and equals the
cumulative sum of volume signed by the close-to-previous-close change with
the first bar contributing 0. -/
theorem C6_atr_obv :
    (∀ (high low close : List ℚ) (period i : ℕ),
        (∃ a, (calculate_atr high low close period).get? i = some (some a)) ↔
          (i < high.length ∧ period ≤ i + 1)) ∧
    (∀ (closes vols : List ℚ), closes ≠ [] → vols.length = closes.length →
        (calculate_obv closes vols).length = closes.length ∧
        ∀ i, i < closes.length →
          (calculate_obv closes vols).get? i =
            some (((List.range (i + 1)).map (obvTerm closes vols)).sum)) := by
  constructor
  · intro high low close period i
    unfold calculate_atr
    rw [rollingMean_get?, true_range_length]
    by_cases hi : i < high.length
    · rw [if_pos hi]
      by_cases hw : period ≤ i + 1
      · rw [if_pos hw]
        exact ⟨fun _ => ⟨hi, hw⟩, fun _ => ⟨_, rfl⟩⟩
      · rw [if_neg hw]
        constructor
        · rintro ⟨a, ha⟩
          exact absurd (Option.some_injective _ ha) (by simp)
        · rintro ⟨-, hw2⟩
          exact absurd hw2 hw
    · rw [if_neg hi]
      constructor
      · rintro ⟨a, ha⟩
        exact absurd ha (by simp)
      · rintro ⟨hi2, -⟩
        exact absurd hi2 hi
  · intro closes vols hne hlen
    have hzl : (List.zipWith (· * ·) (obvDirections closes) vols).length = closes.length := by
      rw [List.length_zipWith, obvDirections_length closes hne, hlen, min_self]
    constructor
    · unfold calculate_obv
      rw [cumsumFrom_length, hzl]
    · intro i hi
      unfold calculate_obv
      rw [cumsumFrom_get? _ 0 i (by rw [hzl]; exact hi), zero_add]
      congr 1
      exact sum_take_eq_range_sum _ (obvTerm closes vols)
        (fun j hj => obv_entry closes vols hne hlen j (by rw [← hzl]; exact hj))
        (i + 1) (by rw [hzl]; exact hi)

/-- C6 (witness): the OBV of the two-bar series closes [1, 2] with volumes
[5, 7] at position 1 equals the signed cumulative sum. -/
theorem C6_obv_witness :
    (calculate_obv [(1:ℚ),2] [5,7]).get? 1 =
      some (((List.range 2).map (obvTerm [(1:ℚ),2] [5,7])).sum) :=
  (C6_atr_obv.2 [(1:ℚ),2] [5,7] (by simp) (by simp)).2 1 (by simp)

end StockDash
